import Mathlib

/-!
Shallow embedding of the convertfile.me backend (a single Flask application
file).  The handler `convert` receives a multipart upload, saves it under a
fixed upload directory, calls `convert_to_jpeg` on the saved path and streams
the resulting path back with `send_file`.  We model the filesystem as an
association list from path strings to byte lists, HTTP responses as an
inductive type, and the Pillow image library at the level the code uses it:
images carry a mode string, `Image.open`/decoding is an arbitrary decoder
function parameter, `convert("RGB")` drops the alpha channel, and saving as
JPEG succeeds exactly for the modes Pillow's JPEG plugin can write.
-/

namespace Backend

/-- A stored byte sequence (file contents, each entry one byte value). -/
abbrev Bytes := List Nat

/-- The filesystem: an association list from path strings to file contents.
First binding of a path wins on reads; writes update in place. -/
abbrev FS := List (String × Bytes)

/-- Read a file: contents of the first binding of `p`, if any. -/
def fsRead : FS → String → Option Bytes
  | [], _ => none
  | (q, w) :: rest, p => if q = p then some w else fsRead rest p

/-- Write a file: overwrite the first binding of `p`, or append a new one. -/
def fsWrite : FS → String → Bytes → FS
  | [], p, v => [(p, v)]
  | (q, w) :: rest, p, v =>
      if q = p then (q, v) :: rest else (q, w) :: fsWrite rest p v

/-- Index of the last occurrence of `c` in the character list, scanning with a
running best index. -/
def rfindAux (cs : List Char) (c : Char) (i : Nat) (best : Option Nat) :
    Option Nat :=
  match cs with
  | [] => best
  | x :: rest => rfindAux rest c (i + 1) (if x = c then some i else best)

/-- Index of the last occurrence of `c` in `cs` (Python `str.rfind`, with
`none` for the missing case). -/
def rfindChar (cs : List Char) (c : Char) : Option Nat :=
  rfindAux cs c 0 none

/-- Start index of the last path component (one past the last `'/'`). -/
def componentStart (cs : List Char) : Nat :=
  match rfindChar cs '/' with
  | some i => i + 1
  | none => 0

/-- Model of Python `os.path.splitext` (posix rules): split at the last dot of
the last path component, except that leading dots of the component never start
an extension (so `".jpg"` and `"..jpg"` have empty extension). -/
def splitext (p : String) : String × String :=
  match rfindChar p.data '.' with
  | none => (p, "")
  | some d =>
      if componentStart p.data ≤ d ∧
          (List.range d).any
            (fun j => componentStart p.data ≤ j ∧ p.data.get? j ≠ some '.')
      then (⟨p.data.take d⟩, ⟨p.data.drop d⟩)
      else (p, "")

/-- `as` is an initial segment of `bs`. -/
def leadsAux : List Char → List Char → Bool
  | [], _ => true
  | _ :: _, [] => false
  | a :: as, b :: bs => a = b && leadsAux as bs

/-- Python `s.startswith(t)`. -/
def strStartsWith (s t : String) : Bool := leadsAux t.data s.data

/-- Python `s.endswith(t)`. -/
def strEndsWith (s t : String) : Bool := leadsAux t.data.reverse s.data.reverse

/-- Python `s.lower()` (ASCII case folding suffices for the extensions the
code compares). -/
def strToLower (s : String) : String := ⟨s.data.map Char.toLower⟩

/-- Model of Python `os.path.join` for two components (posix rules): an
absolute second component discards the first; otherwise a separator is
inserted unless the first component is empty or already ends in one. -/
def osPathJoin (a b : String) : String :=
  if strStartsWith b "/" then b
  else if a = "" || strEndsWith a "/" then a ++ b
  else a ++ "/" ++ b

/-- A Pillow image as the code observes it: a mode string (`"RGB"`, `"RGBA"`,
`"LA"`, ...) and the raw pixel data. -/
structure Image where
  mode : String
  pixels : Bytes
  deriving DecidableEq, Repr

/-- Drop every fourth sample from interleaved RGBA data, keeping R, G, B. -/
def dropAlpha : Bytes → Bytes
  | r :: g :: b :: _ :: rest => r :: g :: b :: dropAlpha rest
  | l => l

/-- Model of Pillow `img.convert("RGB")` applied to an RGBA image: the mode
becomes `"RGB"` and the alpha samples are dropped. -/
def pilConvertRGB (img : Image) : Image :=
  { mode := "RGB", pixels := dropAlpha img.pixels }

/-- The modes Pillow's JPEG plugin can write (the keys of
`JpegImagePlugin.RAWMODE`); `save(_, "JPEG")` raises
`OSError: cannot write mode ... as JPEG` for every other mode. -/
def JPEG_RAWMODES : List String := ["1", "L", "RGB", "RGBX", "CMYK", "YCbCr"]

/-- An image decoder: what `Image.open` followed by pixel access yields on the
stored bytes, `none` when the bytes are not a decodable image.  The theorems
quantify over the decoder; `toyDecode` below is a concrete instance. -/
abbrev Decoder := Bytes → Option Image

/-- A deterministic JPEG encoder: the bytes `img.save(_, "JPEG")` writes for a
writable mode.  The theorems quantify over it; determinism (same image, same
bytes) is the spec's stated assumption about the codec. -/
abbrev Encoder := Image → Bytes

/-- Errors Pillow raises that the backend leaves unhandled. -/
inductive PILError where
  /-- `Image.open` failed: missing file or undecodable bytes. -/
  | unidentifiedImage : PILError
  /-- `img.save(_, "JPEG")` refused the mode (`cannot write mode m as JPEG`);
  modern Pillow removes the file it just created, so the filesystem is
  unchanged. -/
  | cannotWriteMode (m : String) : PILError
  deriving DecidableEq, Repr

/-- An HTTP response as the handler produces it. -/
inductive Response where
  /-- A `(dict, code)` return jsonified by Flask. -/
  | json (status : Nat) (body : String) : Response
  /-- An `HTTPException` raised inside werkzeug/Flask and rendered with the
  framework's default (non-JSON) error body, e.g. `BadRequestKeyError`. -/
  | httpError (status : Nat) : Response
  /-- A 200 `send_file(..., as_attachment=True)` streaming the given bytes. -/
  | attachment (bytes : Bytes) : Response
  /-- An unhandled Python exception surfacing as a 500 server error. -/
  | serverError : Response
  deriving DecidableEq, Repr

/-- The status code of a response. -/
def Response.status : Response → Nat
  | .json s _ => s
  | .httpError s => s
  | .attachment _ => 200
  | .serverError => 500

/-- One entry of `request.files`: client-supplied filename and content. -/
structure FileStorage where
  filename : String
  content : Bytes
  deriving DecidableEq, Repr

/-- A multipart request: the file fields, in order. -/
structure Request where
  files : List (String × FileStorage)
  deriving DecidableEq, Repr

/-- `request.files[name]`: the first field with that name, if any (werkzeug
`MultiDict.__getitem__` raises `BadRequestKeyError` on `none`). -/
def lookupFile : List (String × FileStorage) → String → Option FileStorage
  | [], _ => none
  | (n, f) :: rest, name => if n = name then some f else lookupFile rest name

/-- `UPLOAD_FOLDER = "uploads"` from the source. -/
def UPLOAD_FOLDER : String := "uploads"

/-- The jsonified body of `{"error": "No file uploaded"}`. -/
def NO_FILE_BODY : String := "\x7b\"error\": \"No file uploaded\"\x7d"

/-- `convert_to_jpeg(filepath)` from the source:
splits the extension, computes `output_path = filename + ".jpg"`, and only when
the lowercased extension is `".png"` opens the image, converts mode `"RGBA"`
to `"RGB"`, and saves it as JPEG to the output path.  The output path is
returned whether or not anything was written; Pillow failures escape as
exceptions, modelled by `Except.error` with the filesystem unchanged. -/
def convert_to_jpeg (dec : Decoder) (enc : Encoder) (fs : FS)
    (filepath : String) : Except PILError (FS × String) :=
  let (filename, ext) := splitext filepath
  let output_path := filename ++ ".jpg"
  if strToLower ext = ".png" then
    match fsRead fs filepath with
    | none => .error .unidentifiedImage
    | some bytes =>
        match dec bytes with
        | none => .error .unidentifiedImage
        | some img0 =>
            let img := if img0.mode = "RGBA" then pilConvertRGB img0 else img0
            if JPEG_RAWMODES.contains img.mode then
              .ok (fsWrite fs output_path (enc img), output_path)
            else
              .error (.cannotWriteMode img.mode)
  else
    .ok (fs, output_path)

/-- `send_file(path, as_attachment=True)`: stream the file's bytes as a 200
attachment, or raise `FileNotFoundError` (an unhandled 500) if absent. -/
def sendFile (fs : FS) (path : String) : FS × Response :=
  match fsRead fs path with
  | none => (fs, Response.serverError)
  | some bytes => (fs, Response.attachment bytes)

/-- The `/convert` handler from the source.  `request.files["file"]` raises
`BadRequestKeyError` (a 400 with the framework's default body) when the field
is absent; a present `FileStorage` is falsy exactly when its filename is the
empty string (werkzeug `FileStorage.__bool__`), which triggers the explicit
JSON 400.  Otherwise the upload is saved verbatim to
`os.path.join(UPLOAD_FOLDER, filename)`, converted, and the returned path is
sent back; any exception from conversion or sending surfaces as a 500. -/
def convert (dec : Decoder) (enc : Encoder) (fs : FS) (req : Request) :
    FS × Response :=
  match lookupFile req.files "file" with
  | none => (fs, Response.httpError 400)
  | some file =>
      if file.filename = "" then
        (fs, Response.json 400 NO_FILE_BODY)
      else
        let filepath := osPathJoin UPLOAD_FOLDER file.filename
        let fs1 := fsWrite fs filepath file.content
        match convert_to_jpeg dec enc fs1 filepath with
        | .error _ => (fs1, Response.serverError)
        | .ok (fs2, output_file) => sendFile fs2 output_file

/-- A concrete decoder used to instantiate the quantified theorems: the first
byte tags the mode, the rest are the pixels.  It stands in for Pillow's PNG
decoder, which can yield each of these modes on real PNG files. -/
def toyDecode : Decoder
  | 0 :: px => some { mode := "RGB", pixels := px }
  | 1 :: px => some { mode := "RGBA", pixels := px }
  | 2 :: px => some { mode := "LA", pixels := px }
  | 3 :: px => some { mode := "P", pixels := px }
  | 4 :: px => some { mode := "L", pixels := px }
  | _ => none

/-- A concrete deterministic encoder for instantiating the theorems. -/
def toyEncode : Encoder := fun img => 255 :: img.pixels

/-- The Pillow modes carrying an alpha channel that a PNG can decode to. -/
def modeHasAlpha (m : String) : Bool := m ∈ ["RGBA", "LA", "PA"]

/-! ### Helper lemmas on the filesystem and path models -/

theorem fsRead_fsWrite_self (fs : FS) (p : String) (v : Bytes) :
    fsRead (fsWrite fs p v) p = some v := by
  induction fs with
  | nil => simp [fsWrite, fsRead]
  | cons hd tl ih =>
      rcases hd with ⟨q, w⟩
      by_cases h : q = p <;> simp [fsWrite, fsRead, h, ih]

theorem fsRead_fsWrite_ne (fs : FS) (p r : String) (v : Bytes) (h : r ≠ p) :
    fsRead (fsWrite fs p v) r = fsRead fs r := by
  have h' : p ≠ r := Ne.symm h
  induction fs with
  | nil => simp [fsWrite, fsRead, h']
  | cons hd tl ih =>
      rcases hd with ⟨q, w⟩
      simp only [fsWrite]
      by_cases hq : q = p
      · subst hq
        simp [fsRead, h']
      · simp only [if_neg hq, fsRead]
        by_cases hr : q = r
        · simp [hr]
        · simp [hr, ih]

theorem fsWrite_same (fs : FS) (p : String) (v : Bytes)
    (h : fsRead fs p = some v) : fsWrite fs p v = fs := by
  induction fs with
  | nil => simp [fsRead] at h
  | cons hd tl ih =>
      rcases hd with ⟨q, w⟩
      by_cases hq : q = p
      · subst hq
        simp [fsRead] at h
        simp [fsWrite, h]
      · simp [fsRead, hq] at h
        simp [fsWrite, hq, ih h]

theorem fsWrite_keeps (fs : FS) (p r : String) (v w : Bytes)
    (h : fsRead fs r = some w) :
    ∃ w', fsRead (fsWrite fs p v) r = some w' := by
  by_cases hrp : r = p
  · subst hrp
    exact ⟨v, fsRead_fsWrite_self fs r v⟩
  · exact ⟨w, by rw [fsRead_fsWrite_ne fs p r v hrp]; exact h⟩

theorem string_append_cancel_left (a b c : String) (h : a ++ b = a ++ c) :
    b = c := by
  rcases a with ⟨as⟩; rcases b with ⟨bs⟩; rcases c with ⟨cs⟩
  have h' : as ++ bs = as ++ cs := congrArg String.data h
  exact congrArg String.mk (List.append_cancel_left h')

theorem string_append_ne_empty (a b : String) (hb : b ≠ "") : a ++ b ≠ "" := by
  intro h
  apply hb
  have h2 := congrArg String.data h
  rw [String.data_append] at h2
  have h3 : b.data = [] := (List.append_eq_nil.mp h2).2
  rcases b with ⟨bs⟩
  simp only at h3
  rw [h3]

/-- The two components of `splitext` reassemble to the input path. -/
theorem splitext_append (p : String) :
    (splitext p).1 ++ (splitext p).2 = p := by
  unfold splitext
  cases hd : rfindChar p.data '.' with
  | none =>
      show p ++ "" = p
      rcases p with ⟨ps⟩
      show (⟨ps ++ []⟩ : String) = ⟨ps⟩
      rw [List.append_nil]
  | some d =>
      simp only
      split
      · show (⟨p.data.take d ++ p.data.drop d⟩ : String) = p
        rw [List.take_append_drop]
      · show p ++ "" = p
        rcases p with ⟨ps⟩
        show (⟨ps ++ []⟩ : String) = ⟨ps⟩
        rw [List.append_nil]

/-- Joining the upload directory with a relative filename prefixes
`"uploads/"`. -/
theorem osPathJoin_uploads (b : String) (h : ¬ strStartsWith b "/") :
    osPathJoin UPLOAD_FOLDER b = "uploads/" ++ b := by
  unfold osPathJoin UPLOAD_FOLDER
  rw [if_neg h]
  show "uploads" ++ "/" ++ b = "uploads/" ++ b
  have e : ("uploads" ++ "/" : String) = "uploads/" := rfl
  rw [e]

/-- Characterization of a successful `convert_to_jpeg` call: the returned path
is always the input with its extension replaced by `.jpg`, and the filesystem
is unchanged except possibly for one write to that path, which only happens in
the `.png` branch. -/
theorem convert_to_jpeg_ok (dec : Decoder) (enc : Encoder) (fs : FS)
    (p : String) (fs' : FS) (out : String)
    (h : convert_to_jpeg dec enc fs p = .ok (fs', out)) :
    out = (splitext p).1 ++ ".jpg" ∧
    (fs' = fs ∨
      (strToLower (splitext p).2 = ".png" ∧ ∃ e, fs' = fsWrite fs out e)) := by
  rcases hsp : splitext p with ⟨stem, ext⟩
  dsimp only
  unfold convert_to_jpeg at h
  rw [hsp] at h
  dsimp only at h
  by_cases hext : strToLower ext = ".png"
  · rw [if_pos hext] at h
    rcases hr : fsRead fs p with _ | bytes <;> rw [hr] at h
    · simp at h
    · dsimp only at h
      rcases hd : dec bytes with _ | img <;> rw [hd] at h
      · simp at h
      · dsimp only at h
        generalize (if img.mode = "RGBA" then pilConvertRGB img else img) = img2 at h
        split at h
        · simp only [Except.ok.injEq, Prod.mk.injEq] at h
          exact ⟨h.2.symm, Or.inr ⟨hext, ⟨_, by rw [← h.2, h.1]⟩⟩⟩
        · simp at h
  · rw [if_neg hext] at h
    simp only [Except.ok.injEq, Prod.mk.injEq] at h
    exact ⟨h.2.symm, Or.inl h.1.symm⟩

/-- The successful PNG-conversion flow of the handler, fully characterized:
the upload is saved, the (possibly flattened) image is encoded to the `.jpg`
path, and its bytes are streamed back. -/
theorem convert_png_flow (dec : Decoder) (enc : Encoder) (fs : FS)
    (req : Request) (f : String) (c : Bytes) (img : Image)
    (hf : lookupFile req.files "file" = some ⟨f, c⟩)
    (hne : f ≠ "")
    (hext : strToLower (splitext (osPathJoin UPLOAD_FOLDER f)).2 = ".png")
    (hdec : dec c = some img)
    (hmode : JPEG_RAWMODES.contains
      (if img.mode = "RGBA" then pilConvertRGB img else img).mode = true) :
    convert dec enc fs req =
      (fsWrite (fsWrite fs (osPathJoin UPLOAD_FOLDER f) c)
         ((splitext (osPathJoin UPLOAD_FOLDER f)).1 ++ ".jpg")
         (enc (if img.mode = "RGBA" then pilConvertRGB img else img)),
       Response.attachment
         (enc (if img.mode = "RGBA" then pilConvertRGB img else img))) := by
  have hc : convert_to_jpeg dec enc (fsWrite fs (osPathJoin UPLOAD_FOLDER f) c)
      (osPathJoin UPLOAD_FOLDER f) =
      .ok (fsWrite (fsWrite fs (osPathJoin UPLOAD_FOLDER f) c)
             ((splitext (osPathJoin UPLOAD_FOLDER f)).1 ++ ".jpg")
             (enc (if img.mode = "RGBA" then pilConvertRGB img else img)),
           (splitext (osPathJoin UPLOAD_FOLDER f)).1 ++ ".jpg") := by
    rcases hsp : splitext (osPathJoin UPLOAD_FOLDER f) with ⟨stem, ext⟩
    have hext' : strToLower ext = ".png" := by rw [hsp] at hext; exact hext
    dsimp only
    unfold convert_to_jpeg
    rw [hsp]
    dsimp only
    rw [if_pos hext', fsRead_fsWrite_self]
    dsimp only
    rw [hdec]
    dsimp only
    rw [if_pos hmode]
  unfold convert
  rw [hf]
  dsimp only
  rw [if_neg hne, hc]
  dsimp only
  unfold sendFile
  rw [fsRead_fsWrite_self]

/-- `send_file` never changes the filesystem. -/
theorem sendFile_fst (fs : FS) (p : String) : (sendFile fs p).1 = fs := by
  unfold sendFile
  cases fsRead fs p <;> rfl

/-- When the extension lowercases to `.png`, the computed output path differs
from the input path (a `.png` extension is not `.jpg`). -/
theorem output_ne_input (q : String)
    (hq : strToLower (splitext q).2 = ".png") :
    (splitext q).1 ++ ".jpg" ≠ q := by
  intro hEq
  have h2 : (splitext q).1 ++ ".jpg" = (splitext q).1 ++ (splitext q).2 :=
    hEq.trans (splitext_append q).symm
  have h3 : ".jpg" = (splitext q).2 := string_append_cancel_left _ _ _ h2
  rw [← h3] at hq
  exact absurd hq (by decide)

/-- The non-PNG flow of the handler: the upload is saved and the dangling
`.jpg` path is handed straight to `send_file`. -/
theorem convert_nonpng_flow (dec : Decoder) (enc : Encoder) (fs : FS)
    (req : Request) (f : String) (c : Bytes)
    (hf : lookupFile req.files "file" = some ⟨f, c⟩)
    (hne : f ≠ "")
    (hext : strToLower (splitext (osPathJoin UPLOAD_FOLDER f)).2 ≠ ".png") :
    convert dec enc fs req =
      sendFile (fsWrite fs (osPathJoin UPLOAD_FOLDER f) c)
        ((splitext (osPathJoin UPLOAD_FOLDER f)).1 ++ ".jpg") := by
  have hc : convert_to_jpeg dec enc (fsWrite fs (osPathJoin UPLOAD_FOLDER f) c)
      (osPathJoin UPLOAD_FOLDER f) =
      .ok (fsWrite fs (osPathJoin UPLOAD_FOLDER f) c,
           (splitext (osPathJoin UPLOAD_FOLDER f)).1 ++ ".jpg") := by
    rcases hsp : splitext (osPathJoin UPLOAD_FOLDER f) with ⟨stem, ext⟩
    have hext' : strToLower ext ≠ ".png" := by rw [hsp] at hext; exact hext
    dsimp only
    unfold convert_to_jpeg
    rw [hsp]
    dsimp only
    rw [if_neg hext']
  unfold convert
  rw [hf]
  dsimp only
  rw [if_neg hne, hc]

/-! ### The claims -/

/-- C1 (amended): a POST to `/convert` whose form has no `file` field raises
`BadRequestKeyError` inside `request.files["file"]`, so the handler answers
400 with the framework's default error body — not the JSON payload — and
writes nothing to the filesystem. -/
theorem C1_missing_field_framework_400 (dec : Decoder) (enc : Encoder)
    (fs : FS) (req : Request) (h : lookupFile req.files "file" = none) :
    convert dec enc fs req = (fs, Response.httpError 400) := by
  unfold convert
  rw [h]

theorem C1_missing_field_framework_400_witness :
    convert toyDecode toyEncode [] ⟨[]⟩ = ([], Response.httpError 400) :=
  C1_missing_field_framework_400 toyDecode toyEncode [] ⟨[]⟩ rfl

/-- C1 counterexample: on a request with no `file` field the body is the
framework's default error page, not `{"error": "No file uploaded"}`. -/
theorem C1_counterexample :
    (convert toyDecode toyEncode [] ⟨[]⟩).2 = Response.httpError 400 ∧
    (convert toyDecode toyEncode [] ⟨[]⟩).2 ≠ Response.json 400 NO_FILE_BODY := by
  constructor
  · rfl
  · decide

/-- C10: a present `file` field whose filename is the empty string is falsy,
so the handler returns the explicit JSON 400 and writes nothing. -/
theorem C10_empty_filename_json_400 (dec : Decoder) (enc : Encoder) (fs : FS)
    (req : Request) (file : FileStorage)
    (h : lookupFile req.files "file" = some file) (he : file.filename = "") :
    convert dec enc fs req = (fs, Response.json 400 NO_FILE_BODY) := by
  unfold convert
  rw [h]
  simp only
  rw [if_pos he]

theorem C10_empty_filename_json_400_witness :
    convert toyDecode toyEncode [] ⟨[("file", ⟨"", [1]⟩)]⟩ =
      ([], Response.json 400 NO_FILE_BODY) :=
  C10_empty_filename_json_400 toyDecode toyEncode [] ⟨[("file", ⟨"", [1]⟩)]⟩
    ⟨"", [1]⟩ rfl rfl

/-- C5: `convert_to_jpeg` touches the image codec only when the lowercased
extension is `.png`: for any other extension the filesystem is unchanged and
the result does not depend on the decoder or encoder at all, while in the
`.png` case the decoder is consulted (an undecodable file yields the
`UnidentifiedImageError` failure). -/
theorem C5_conversion_only_for_png (fs : FS) (p : String) :
    (strToLower (splitext p).2 ≠ ".png" →
      ∀ dec enc, convert_to_jpeg dec enc fs p =
        .ok (fs, (splitext p).1 ++ ".jpg")) ∧
    (strToLower (splitext p).2 = ".png" →
      ∀ (dec : Decoder) (enc : Encoder) (bs : Bytes),
        fsRead fs p = some bs → dec bs = none →
        convert_to_jpeg dec enc fs p = .error .unidentifiedImage) := by
  rcases hsp : splitext p with ⟨stem, ext⟩
  dsimp only
  constructor
  · intro hext dec enc
    unfold convert_to_jpeg
    rw [hsp]
    dsimp only
    rw [if_neg hext]
  · intro hext dec enc bs hr hd
    unfold convert_to_jpeg
    rw [hsp]
    dsimp only
    rw [if_pos hext, hr]
    dsimp only
    rw [hd]

theorem C5_conversion_only_for_png_witness :
    strToLower (splitext "uploads/X.gif").2 ≠ ".png" ∧
    convert_to_jpeg toyDecode toyEncode [("uploads/X.gif", [9])]
      "uploads/X.gif" =
      .ok ([("uploads/X.gif", [9])], (splitext "uploads/X.gif").1 ++ ".jpg") :=
  ⟨by decide,
   (C5_conversion_only_for_png [("uploads/X.gif", [9])] "uploads/X.gif").1
     (by decide) toyDecode toyEncode⟩

/-- C6: whenever `convert_to_jpeg` returns a path, it is the input path with
its extension stripped and `.jpg` appended, whether or not anything was
converted. -/
theorem C6_output_path_shape (dec : Decoder) (enc : Encoder) (fs : FS)
    (p : String) (fs' : FS) (out : String)
    (h : convert_to_jpeg dec enc fs p = .ok (fs', out)) :
    out = (splitext p).1 ++ ".jpg" :=
  (convert_to_jpeg_ok dec enc fs p fs' out h).1

theorem C6_output_path_shape_witness :
    "uploads/notes.jpg" = (splitext "uploads/notes.txt").1 ++ ".jpg" :=
  C6_output_path_shape toyDecode toyEncode [] "uploads/notes.txt" []
    "uploads/notes.jpg" (by rfl)

/-- C2 (amended): a valid PNG upload `X.png` whose decoded mode is `"RGBA"`
or already one the JPEG encoder accepts yields a 200 attachment whose body is
the JPEG encoding of the (flattened) image, and `uploads/X.jpg` holds those
bytes afterward.  (A valid PNG decoding to another alpha or palette mode,
e.g. `"LA"`, instead crashes the encode — see the counterexample.) -/
theorem C2_png_upload_success (dec : Decoder) (enc : Encoder) (fs : FS)
    (req : Request) (X : String) (c : Bytes) (img : Image)
    (hf : lookupFile req.files "file" = some ⟨X ++ ".png", c⟩)
    (habs : ¬ strStartsWith (X ++ ".png") "/")
    (hsp : splitext ("uploads/" ++ (X ++ ".png")) = ("uploads/" ++ X, ".png"))
    (hdec : dec c = some img)
    (hmode : JPEG_RAWMODES.contains
      (if img.mode = "RGBA" then pilConvertRGB img else img).mode = true) :
    convert dec enc fs req =
      (fsWrite (fsWrite fs ("uploads/" ++ (X ++ ".png")) c)
         ("uploads/" ++ X ++ ".jpg")
         (enc (if img.mode = "RGBA" then pilConvertRGB img else img)),
       Response.attachment
         (enc (if img.mode = "RGBA" then pilConvertRGB img else img))) ∧
    fsRead (convert dec enc fs req).1 ("uploads/" ++ X ++ ".jpg") =
      some (enc (if img.mode = "RGBA" then pilConvertRGB img else img)) := by
  have hne : X ++ ".png" ≠ "" := string_append_ne_empty X ".png" (by decide)
  have hjoin := osPathJoin_uploads (X ++ ".png") habs
  have hext : strToLower
      (splitext (osPathJoin UPLOAD_FOLDER (X ++ ".png"))).2 = ".png" := by
    rw [hjoin, hsp]
    rfl
  have hmain := convert_png_flow dec enc fs req (X ++ ".png") c img hf hne
    hext hdec hmode
  rw [hjoin, hsp] at hmain
  dsimp only at hmain
  exact ⟨hmain, by rw [hmain]; exact fsRead_fsWrite_self _ _ _⟩

/-- C2 counterexample: a valid PNG decoding to mode `"LA"` (grey plus alpha)
is not flattened and cannot be written as JPEG, so the request returns a 500
server error and `uploads/X.jpg` does not exist afterward — not a 200 JPEG
response. -/
theorem C2_counterexample :
    toyDecode [2, 7, 7] = some { mode := "LA", pixels := [7, 7] } ∧
    (convert toyDecode toyEncode []
      ⟨[("file", ⟨"X.png", [2, 7, 7]⟩)]⟩).2.status = 500 ∧
    fsRead (convert toyDecode toyEncode []
      ⟨[("file", ⟨"X.png", [2, 7, 7]⟩)]⟩).1 "uploads/X.jpg" = none :=
  ⟨rfl, rfl, rfl⟩

theorem C2_png_upload_success_witness :
    convert toyDecode toyEncode [] ⟨[("file", ⟨"W.png", [1, 9, 9, 9, 9]⟩)]⟩ =
      ([("uploads/W.png", [1, 9, 9, 9, 9]),
        ("uploads/W.jpg", [255, 9, 9, 9])],
       Response.attachment [255, 9, 9, 9]) ∧
    fsRead (convert toyDecode toyEncode []
        ⟨[("file", ⟨"W.png", [1, 9, 9, 9, 9]⟩)]⟩).1 "uploads/W.jpg" =
      some [255, 9, 9, 9] := by
  have h := C2_png_upload_success toyDecode toyEncode []
    ⟨[("file", ⟨"W" ++ ".png", [1, 9, 9, 9, 9]⟩)]⟩ "W" [1, 9, 9, 9, 9]
    ⟨"RGBA", [9, 9, 9, 9]⟩ rfl (by decide) (by rfl) rfl rfl
  exact h

/-- C3 (amended): for a non-`.png` upload no conversion happens, and whenever
the computed `.jpg` output path is absent after the upload is saved,
`send_file` hits a missing file and the request surfaces a 500 server error,
never a 200.  (When that path does exist — the upload itself carrying a
lowercase `.jpg` extension, or a stale output of an earlier request — the
handler instead returns 200 with those bytes, refuting the claim as stated.) -/
theorem C3_non_png_fails_when_output_absent (dec : Decoder) (enc : Encoder)
    (fs : FS) (req : Request) (f : String) (c : Bytes)
    (hf : lookupFile req.files "file" = some ⟨f, c⟩) (hne : f ≠ "")
    (hext : strToLower (splitext (osPathJoin UPLOAD_FOLDER f)).2 ≠ ".png")
    (hout : fsRead (fsWrite fs (osPathJoin UPLOAD_FOLDER f) c)
      ((splitext (osPathJoin UPLOAD_FOLDER f)).1 ++ ".jpg") = none) :
    convert dec enc fs req =
      (fsWrite fs (osPathJoin UPLOAD_FOLDER f) c, Response.serverError) ∧
    (convert dec enc fs req).2.status = 500 := by
  have hmain : convert dec enc fs req =
      (fsWrite fs (osPathJoin UPLOAD_FOLDER f) c, Response.serverError) := by
    rw [convert_nonpng_flow dec enc fs req f c hf hne hext]
    unfold sendFile
    rw [hout]
  exact ⟨hmain, by rw [hmain]; rfl⟩

/-- C3 counterexample: uploading `X.jpg` makes the computed output path equal
the just-saved input path, so `send_file` finds it and the request succeeds
with a 200 and the original bytes — a non-PNG upload that does not fail. -/
theorem C3_counterexample :
    strToLower (splitext "uploads/X.jpg").2 = ".jpg" ∧
    convert toyDecode toyEncode [] ⟨[("file", ⟨"X.jpg", [1, 2, 3]⟩)]⟩ =
      ([("uploads/X.jpg", [1, 2, 3])], Response.attachment [1, 2, 3]) ∧
    (convert toyDecode toyEncode []
      ⟨[("file", ⟨"X.jpg", [1, 2, 3]⟩)]⟩).2.status = 200 :=
  ⟨rfl, rfl, rfl⟩

theorem C3_non_png_fails_when_output_absent_witness :
    convert toyDecode toyEncode [] ⟨[("file", ⟨"X.gif", [5, 5]⟩)]⟩ =
      ([("uploads/X.gif", [5, 5])], Response.serverError) ∧
    (convert toyDecode toyEncode []
      ⟨[("file", ⟨"X.gif", [5, 5]⟩)]⟩).2.status = 500 := by
  have h := C3_non_png_fails_when_output_absent toyDecode toyEncode []
    ⟨[("file", ⟨"X.gif", [5, 5]⟩)]⟩ "X.gif" [5, 5] rfl (by decide)
    (by decide) (by rfl)
  exact h

/-- C4 (amended): only the exact decoded mode `"RGBA"` is flattened before
JPEG encoding: in that case `convert_to_jpeg` converts the image to mode
`"RGB"` — which carries no alpha channel — and writes the encoding of the
flattened image.  (Other alpha modes such as `"LA"` or `"PA"` are not
flattened; their encode fails — see the counterexample.) -/
theorem C4_rgba_flattened_to_rgb (dec : Decoder) (enc : Encoder) (fs : FS)
    (p : String) (bs : Bytes) (img : Image)
    (hext : strToLower (splitext p).2 = ".png")
    (hr : fsRead fs p = some bs)
    (hdec : dec bs = some img)
    (hrgba : img.mode = "RGBA") :
    convert_to_jpeg dec enc fs p =
      .ok (fsWrite fs ((splitext p).1 ++ ".jpg") (enc (pilConvertRGB img)),
           (splitext p).1 ++ ".jpg") ∧
    (pilConvertRGB img).mode = "RGB" ∧
    modeHasAlpha (pilConvertRGB img).mode = false := by
  refine ⟨?_, rfl, rfl⟩
  rcases hsp : splitext p with ⟨stem, ext⟩
  have hext' : strToLower ext = ".png" := by rw [hsp] at hext; exact hext
  dsimp only
  unfold convert_to_jpeg
  rw [hsp]
  dsimp only
  rw [if_pos hext', hr]
  dsimp only
  rw [hdec]
  dsimp only
  rw [if_pos hrgba,
    if_pos (show JPEG_RAWMODES.contains (pilConvertRGB img).mode = true from rfl)]

/-- C4 counterexample: a PNG decoding to the alpha mode `"LA"` is not
flattened — `convert_to_jpeg` hands the still-alpha mode `"LA"` to the JPEG
encoder, which raises instead of producing an alpha-free output. -/
theorem C4_counterexample :
    toyDecode [2, 5, 6] = some { mode := "LA", pixels := [5, 6] } ∧
    modeHasAlpha "LA" = true ∧
    convert_to_jpeg toyDecode toyEncode [("uploads/G.png", [2, 5, 6])]
      "uploads/G.png" = .error (.cannotWriteMode "LA") :=
  ⟨rfl, rfl, rfl⟩

theorem C4_rgba_flattened_to_rgb_witness :
    convert_to_jpeg toyDecode toyEncode [("uploads/R.png", [1, 3, 3, 3, 3])]
      "uploads/R.png" =
      .ok ([("uploads/R.png", [1, 3, 3, 3, 3]),
            ("uploads/R.jpg", [255, 3, 3, 3])], "uploads/R.jpg") ∧
    (pilConvertRGB ⟨"RGBA", [3, 3, 3, 3]⟩).mode = "RGB" ∧
    modeHasAlpha (pilConvertRGB ⟨"RGBA", [3, 3, 3, 3]⟩).mode = false := by
  have h := C4_rgba_flattened_to_rgb toyDecode toyEncode
    [("uploads/R.png", [1, 3, 3, 3, 3])] "uploads/R.png" [1, 3, 3, 3, 3]
    ⟨"RGBA", [3, 3, 3, 3]⟩ (by rfl) rfl rfl rfl
  exact h

/-- C7: uploading the same PNG twice (same bytes, same filename) is
idempotent: the second request leaves the filesystem exactly as the first
left it — in particular the `.jpg` file holds byte-identical contents — and
returns the same response, since the decoder and encoder are deterministic
functions. -/
theorem C7_double_upload_idempotent (dec : Decoder) (enc : Encoder) (fs : FS)
    (req : Request) (f : String) (c : Bytes) (img : Image)
    (hf : lookupFile req.files "file" = some ⟨f, c⟩) (hne : f ≠ "")
    (hext : strToLower (splitext (osPathJoin UPLOAD_FOLDER f)).2 = ".png")
    (hdec : dec c = some img)
    (hmode : JPEG_RAWMODES.contains
      (if img.mode = "RGBA" then pilConvertRGB img else img).mode = true) :
    convert dec enc (convert dec enc fs req).1 req = convert dec enc fs req := by
  have h1 := convert_png_flow dec enc fs req f c img hf hne hext hdec hmode
  have h2 := convert_png_flow dec enc
    (fsWrite (fsWrite fs (osPathJoin UPLOAD_FOLDER f) c)
      ((splitext (osPathJoin UPLOAD_FOLDER f)).1 ++ ".jpg")
      (enc (if img.mode = "RGBA" then pilConvertRGB img else img)))
    req f c img hf hne hext hdec hmode
  have hneq := output_ne_input (osPathJoin UPLOAD_FOLDER f) hext
  have hr1 : fsRead
      (fsWrite (fsWrite fs (osPathJoin UPLOAD_FOLDER f) c)
        ((splitext (osPathJoin UPLOAD_FOLDER f)).1 ++ ".jpg")
        (enc (if img.mode = "RGBA" then pilConvertRGB img else img)))
      (osPathJoin UPLOAD_FOLDER f) = some c := by
    rw [fsRead_fsWrite_ne _ _ _ _ (Ne.symm hneq)]
    exact fsRead_fsWrite_self _ _ _
  rw [h1, h2, fsWrite_same _ _ _ hr1,
    fsWrite_same _ _ _ (fsRead_fsWrite_self _ _ _)]

theorem C7_double_upload_idempotent_witness :
    convert toyDecode toyEncode
      (convert toyDecode toyEncode []
        ⟨[("file", ⟨"V.png", [1, 8, 8, 8, 8]⟩)]⟩).1
      ⟨[("file", ⟨"V.png", [1, 8, 8, 8, 8]⟩)]⟩ =
    convert toyDecode toyEncode [] ⟨[("file", ⟨"V.png", [1, 8, 8, 8, 8]⟩)]⟩ :=
  C7_double_upload_idempotent toyDecode toyEncode []
    ⟨[("file", ⟨"V.png", [1, 8, 8, 8, 8]⟩)]⟩ "V.png" [1, 8, 8, 8, 8]
    ⟨"RGBA", [8, 8, 8, 8]⟩ rfl (by decide) (by rfl) rfl rfl

/-- C8: a successful upload writes the uploaded bytes verbatim to
`os.path.join("uploads", filename)` using the client-supplied filename
unsanitized, those bytes are still there when the request finishes, and
nothing is ever deleted: every file readable before the request is still
readable afterward. -/
theorem C8_saved_verbatim_never_deleted (dec : Decoder) (enc : Encoder)
    (fs : FS) (req : Request) (file : FileStorage)
    (hf : lookupFile req.files "file" = some file)
    (hne : file.filename ≠ "") :
    fsRead (convert dec enc fs req).1 (osPathJoin UPLOAD_FOLDER file.filename)
        = some file.content ∧
    ∀ p v, fsRead fs p = some v →
      ∃ v', fsRead (convert dec enc fs req).1 p = some v' := by
  unfold convert
  rw [hf]
  dsimp only
  rw [if_neg hne]
  rcases hcj : convert_to_jpeg dec enc
      (fsWrite fs (osPathJoin UPLOAD_FOLDER file.filename) file.content)
      (osPathJoin UPLOAD_FOLDER file.filename) with err | ⟨fs2, out⟩ <;>
    dsimp only
  · exact ⟨fsRead_fsWrite_self _ _ _,
      fun p v hv => fsWrite_keeps fs _ p _ v hv⟩
  · rw [sendFile_fst]
    rcases convert_to_jpeg_ok dec enc _ _ _ _ hcj with ⟨hop, hfs2 | ⟨hpng, e, hfs2⟩⟩
    · subst hfs2
      exact ⟨fsRead_fsWrite_self _ _ _,
        fun p v hv => fsWrite_keeps fs _ p _ v hv⟩
    · subst hfs2
      have hneq : out ≠ osPathJoin UPLOAD_FOLDER file.filename := by
        rw [hop]
        exact output_ne_input _ hpng
      constructor
      · rw [fsRead_fsWrite_ne _ _ _ _ (Ne.symm hneq)]
        exact fsRead_fsWrite_self _ _ _
      · intro p v hv
        rcases fsWrite_keeps fs (osPathJoin UPLOAD_FOLDER file.filename) p
          file.content v hv with ⟨v1, hv1⟩
        exact fsWrite_keeps _ out p e v1 hv1

theorem C8_saved_verbatim_never_deleted_witness :
    fsRead (convert toyDecode toyEncode [("old.txt", [4])]
        ⟨[("file", ⟨"D.png", [1, 2, 2, 2, 2]⟩)]⟩).1 "uploads/D.png" =
      some [1, 2, 2, 2, 2] ∧
    ∀ p v, fsRead [("old.txt", [4])] p = some v →
      ∃ v', fsRead (convert toyDecode toyEncode [("old.txt", [4])]
        ⟨[("file", ⟨"D.png", [1, 2, 2, 2, 2]⟩)]⟩).1 p = some v' := by
  have h := C8_saved_verbatim_never_deleted toyDecode toyEncode
    [("old.txt", [4])] ⟨[("file", ⟨"D.png", [1, 2, 2, 2, 2]⟩)]⟩
    ⟨"D.png", [1, 2, 2, 2, 2]⟩ rfl (by decide)
  exact h

/-- C9 (amended): an upload whose filename splits to the exact lowercase
extension `.jpg` computes an output path equal to the saved input path, so
the handler returns 200 with the original uploaded bytes unchanged — no
conversion, no decoding, no error.  (A filename such as `".jpg"`, which ends
in `.jpg` but has an empty `splitext` extension, instead yields a dangling
`uploads/.jpg.jpg` path and a 500 — see the counterexample.) -/
theorem C9_jpg_upload_passthrough (dec : Decoder) (enc : Encoder) (fs : FS)
    (req : Request) (f : String) (c : Bytes) (stem : String)
    (hf : lookupFile req.files "file" = some ⟨f, c⟩) (hne : f ≠ "")
    (hsp : splitext (osPathJoin UPLOAD_FOLDER f) = (stem, ".jpg")) :
    convert dec enc fs req =
      (fsWrite fs (osPathJoin UPLOAD_FOLDER f) c, Response.attachment c) := by
  have hext : strToLower (splitext (osPathJoin UPLOAD_FOLDER f)).2 ≠ ".png" := by
    rw [hsp]
    exact (by decide : strToLower ".jpg" ≠ ".png")
  rw [convert_nonpng_flow dec enc fs req f c hf hne hext]
  have hfp : (splitext (osPathJoin UPLOAD_FOLDER f)).1 ++ ".jpg" =
      osPathJoin UPLOAD_FOLDER f := by
    have h := splitext_append (osPathJoin UPLOAD_FOLDER f)
    rw [hsp] at h
    rw [hsp]
    exact h
  rw [hfp]
  unfold sendFile
  rw [fsRead_fsWrite_self]

/-- C9 counterexample: the filename `".jpg"` ends in the lowercase extension
`.jpg`, yet `os.path.splitext` treats it as extensionless, the computed
output path `uploads/.jpg.jpg` does not exist, and the request returns a 500
server error rather than a 200 with the original bytes. -/
theorem C9_counterexample :
    strEndsWith ".jpg" ".jpg" = true ∧
    (convert toyDecode toyEncode []
      ⟨[("file", ⟨".jpg", [1, 2]⟩)]⟩).2 = Response.serverError ∧
    (convert toyDecode toyEncode []
      ⟨[("file", ⟨".jpg", [1, 2]⟩)]⟩).2.status = 500 :=
  ⟨rfl, rfl, rfl⟩

theorem C9_jpg_upload_passthrough_witness :
    convert toyDecode toyEncode [] ⟨[("file", ⟨"Y.jpg", [6, 6, 6]⟩)]⟩ =
      ([("uploads/Y.jpg", [6, 6, 6])], Response.attachment [6, 6, 6]) := by
  have h := C9_jpg_upload_passthrough toyDecode toyEncode []
    ⟨[("file", ⟨"Y.jpg", [6, 6, 6]⟩)]⟩ "Y.jpg" [6, 6, 6] "uploads/Y"
    rfl (by decide) (by rfl)
  exact h

end Backend
